import Mathlib

/- Shallow embedding of the procurement platform core (models.py / services.py).

   Each SQLAlchemy table becomes a Lean list of row structures; the database
   session becomes an explicit DB state threaded through the operations;
   SQL timestamps become a logical Nat clock (db.now) that advances on every
   committing operation; auto-increment primary keys come from db.next_id.
   Float columns are embedded as Option Rat (only equality of stored values
   matters to the claims, never float rounding). -/

inductive CompanyType where
  | DEVELOPER
  | CONTRACTOR
  deriving DecidableEq, Repr

structure Company where
  id : Nat
  name : String
  company_type : CompanyType
  country : Option String
  city : Option String
  website : Option String
  description : Option String
  size_category : Option String
  created_at : Nat
  deriving DecidableEq, Repr

structure Capability where
  id : Nat
  name : String
  description : Option String
  deriving DecidableEq, Repr

structure CompanyCapability where
  id : Nat
  company_id : Nat
  capability_id : Nat
  experience_years : Option ℚ
  typical_project_size_m2 : Option ℚ
  typical_contract_value_million : Option ℚ
  deriving DecidableEq, Repr

inductive ProjectStatus where
  | DRAFT
  | OPEN
  | CLOSED
  deriving DecidableEq, Repr

structure Project where
  id : Nat
  developer_company_id : Nat
  name : String
  location : Option String
  project_type : Option String
  description : Option String
  built_up_area_m2 : Option ℚ
  estimated_budget_million : Option ℚ
  status : ProjectStatus
  created_at : Nat
  deriving DecidableEq, Repr

structure ProjectRequirement where
  id : Nat
  project_id : Nat
  capability_id : Nat
  min_experience_years : Option ℚ
  min_contract_value_million : Option ℚ
  deriving DecidableEq, Repr

inductive PrequalificationStatus where
  | INTERESTED
  | SUBMITTED
  | REJECTED
  | SHORTLISTED
  deriving DecidableEq, Repr

structure PrequalificationResponse where
  id : Nat
  project_id : Nat
  contractor_company_id : Nat
  status : PrequalificationStatus
  notes : Option String
  created_at : Nat
  updated_at : Option Nat
  deriving DecidableEq, Repr

/-- The whole relational store: five tables plus the id generator and clock. -/
structure DB where
  companies : List Company
  capabilities : List Capability
  company_capabilities : List CompanyCapability
  projects : List Project
  project_requirements : List ProjectRequirement
  prequalification_responses : List PrequalificationResponse
  next_id : Nat
  now : Nat
  deriving DecidableEq, Repr

/-- models.py line 129: the column-level default of Project.status is DRAFT
    (it applies only when a Project row is constructed without a status). -/
def project_status_column_default : ProjectStatus := ProjectStatus.DRAFT

/-- services.py create_company: insert a new Company row and return it. -/
def create_company (db : DB) (name : String) (company_type : CompanyType)
    (country : optParam (Option String) none) (city : optParam (Option String) none)
    (website : optParam (Option String) none) (description : optParam (Option String) none)
    (size_category : optParam (Option String) none) : DB × Company :=
  let company : Company :=
    { id := db.next_id, name := name, company_type := company_type, country := country,
      city := city, website := website, description := description,
      size_category := size_category, created_at := db.now }
  ({ db with
      companies := db.companies ++ [company],
      next_id := db.next_id + 1, now := db.now + 1 }, company)

/-- services.py create_capability: insert a new Capability row and return it. -/
def create_capability (db : DB) (name : String)
    (description : optParam (Option String) none) : DB × Capability :=
  let cap : Capability := { id := db.next_id, name := name, description := description }
  ({ db with
      capabilities := db.capabilities ++ [cap],
      next_id := db.next_id + 1, now := db.now + 1 }, cap)

/-- services.py add_capability_to_company: upsert-like; if a row for
    (company_id, capability_id) exists, overwrite its three numeric
    attributes in place and return it, else insert a fresh row. -/
def add_capability_to_company (db : DB) (company_id : Nat) (capability_id : Nat)
    (experience_years : optParam (Option ℚ) none)
    (typical_project_size_m2 : optParam (Option ℚ) none)
    (typical_contract_value_million : optParam (Option ℚ) none) :
    DB × CompanyCapability :=
  match db.company_capabilities.find? (fun cc =>
      cc.company_id == company_id && cc.capability_id == capability_id) with
  | some existing =>
    ({ db with
        company_capabilities := db.company_capabilities.map
          (fun cc => if cc.id == existing.id then
            { existing with
              experience_years := experience_years,
              typical_project_size_m2 := typical_project_size_m2,
              typical_contract_value_million := typical_contract_value_million }
            else cc),
        now := db.now + 1 },
     { existing with
       experience_years := experience_years,
       typical_project_size_m2 := typical_project_size_m2,
       typical_contract_value_million := typical_contract_value_million })
  | none =>
    ({ db with
        company_capabilities := db.company_capabilities ++
          [{ id := db.next_id, company_id := company_id, capability_id := capability_id,
             experience_years := experience_years,
             typical_project_size_m2 := typical_project_size_m2,
             typical_contract_value_million := typical_contract_value_million }],
        next_id := db.next_id + 1, now := db.now + 1 },
     { id := db.next_id, company_id := company_id, capability_id := capability_id,
       experience_years := experience_years,
       typical_project_size_m2 := typical_project_size_m2,
       typical_contract_value_million := typical_contract_value_million })

/-- services.py list_company_capabilities. -/
def list_company_capabilities (db : DB) (company_id : Nat) : List CompanyCapability :=
  db.company_capabilities.filter (fun cc => cc.company_id == company_id)

/-- services.py create_project: the service signature defaults status to OPEN
    and always passes it to the Project constructor, so the model column
    default (DRAFT) is never consulted on this path. -/
def create_project (db : DB) (developer_company_id : Nat) (name : String)
    (location : optParam (Option String) none) (project_type : optParam (Option String) none)
    (description : optParam (Option String) none)
    (built_up_area_m2 : optParam (Option ℚ) none)
    (estimated_budget_million : optParam (Option ℚ) none)
    (status : optParam ProjectStatus ProjectStatus.OPEN) : DB × Project :=
  let project : Project :=
    { id := db.next_id, developer_company_id := developer_company_id, name := name,
      location := location, project_type := project_type, description := description,
      built_up_area_m2 := built_up_area_m2,
      estimated_budget_million := estimated_budget_million,
      status := status, created_at := db.now }
  ({ db with projects := db.projects ++ [project],
             next_id := db.next_id + 1, now := db.now + 1 }, project)

/-- services.py add_project_requirement: plain insert (no uniqueness check). -/
def add_project_requirement (db : DB) (project_id : Nat) (capability_id : Nat)
    (min_experience_years : optParam (Option ℚ) none)
    (min_contract_value_million : optParam (Option ℚ) none) :
    DB × ProjectRequirement :=
  let req : ProjectRequirement :=
    { id := db.next_id, project_id := project_id, capability_id := capability_id,
      min_experience_years := min_experience_years,
      min_contract_value_million := min_contract_value_million }
  ({ db with
      project_requirements := db.project_requirements ++ [req],
      next_id := db.next_id + 1, now := db.now + 1 }, req)

/-- services.py list_project_requirements. -/
def list_project_requirements (db : DB) (project_id : Nat) : List ProjectRequirement :=
  db.project_requirements.filter (fun r => r.project_id == project_id)

/-- services.py create_or_update_prequalification_response: look up the row
    keyed by (project_id, contractor_company_id); if found, overwrite status
    and notes in place (the updated_at column has onupdate=now, so the UPDATE
    stamps it), else insert a fresh row (updated_at stays NULL on INSERT). -/
def create_or_update_prequalification_response (db : DB) (project_id : Nat)
    (contractor_company_id : Nat)
    (status : optParam PrequalificationStatus PrequalificationStatus.INTERESTED)
    (notes : optParam (Option String) none) : DB × PrequalificationResponse :=
  match db.prequalification_responses.find? (fun resp =>
      resp.project_id == project_id &&
      resp.contractor_company_id == contractor_company_id) with
  | some existing =>
    ({ db with
        prequalification_responses := db.prequalification_responses.map
          (fun resp => if resp.id == existing.id then
            { existing with
              status := status, notes := notes, updated_at := some db.now }
            else resp),
        now := db.now + 1 },
     { existing with status := status, notes := notes, updated_at := some db.now })
  | none =>
    ({ db with
        prequalification_responses := db.prequalification_responses ++
          [{ id := db.next_id, project_id := project_id,
             contractor_company_id := contractor_company_id,
             status := status, notes := notes,
             created_at := db.now, updated_at := none }],
        next_id := db.next_id + 1, now := db.now + 1 },
     { id := db.next_id, project_id := project_id,
       contractor_company_id := contractor_company_id,
       status := status, notes := notes, created_at := db.now, updated_at := none })

/-- services.py list_prequalification_responses_for_project. -/
def list_prequalification_responses_for_project (db : DB) (project_id : Nat) :
    List PrequalificationResponse :=
  db.prequalification_responses.filter (fun resp => resp.project_id == project_id)

/-- The grouped COUNT(r.id) of the matching join for one company: the number
    of (CompanyCapability, ProjectRequirement) pairs with cc.company_id = c.id,
    cc.capability_id = r.capability_id and r.project_id = project_id. -/
def matchedPairCount (db : DB) (project_id : Nat) (c : Company) : Nat :=
  ((db.company_capabilities.filter (fun cc => cc.company_id == c.id)).map
    (fun cc => (db.project_requirements.filter
      (fun r => r.project_id == project_id &&
                cc.capability_id == r.capability_id)).length)).sum

/-- The rows of the grouped join in services.py match_contractors_for_project:
    one (company, matched_count) row per CONTRACTOR company that appears in
    the inner join (i.e. whose pair count is non-zero). -/
def joinGroupRows (db : DB) (project_id : Nat) : List (Company × Nat) :=
  (db.companies.filter
      (fun c => decide (c.company_type = CompanyType.CONTRACTOR))).filterMap
    (fun c =>
      if matchedPairCount db project_id c == 0 then none
      else some (c, matchedPairCount db project_id c))

/-- Stable insertion of one result tuple into a list sorted by score
    descending: the tuple goes in front of the first strictly smaller score
    (Python list.sort(key=score, reverse=True) is a stable descending sort). -/
def insertByScoreDesc (x : Company × ℚ × Nat) :
    List (Company × ℚ × Nat) → List (Company × ℚ × Nat)
  | [] => [x]
  | y :: ys => if y.2.1 < x.2.1 then x :: y :: ys else y :: insertByScoreDesc x ys

/-- Stable sort by score descending, mirroring results.sort(reverse=True). -/
def sortByScoreDesc : List (Company × ℚ × Nat) → List (Company × ℚ × Nat)
  | [] => []
  | x :: xs => insertByScoreDesc x (sortByScoreDesc xs)

/-- services.py match_contractors_for_project: empty on a missing project or
    a project with no requirement rows; otherwise the grouped join rows,
    scored with score = float(matched_count) and sorted by score descending. -/
def match_contractors_for_project (db : DB) (project_id : Nat) :
    List (Company × ℚ × Nat) :=
  match db.projects.find? (fun p => p.id == project_id) with
  | none => []
  | some _ =>
    if (db.project_requirements.filter (fun r => r.project_id == project_id)).isEmpty
    then []
    else
      sortByScoreDesc ((joinGroupRows db project_id).map
        (fun row => (row.1, (row.2 : ℚ), row.2)))

/-- Spec-side candidacy predicate: the company holds at least one capability
    that some requirement row of the project references. -/
def hasOverlap (db : DB) (project_id : Nat) (c : Company) : Bool :=
  db.company_capabilities.any (fun cc =>
    cc.company_id == c.id &&
    db.project_requirements.any (fun r =>
      r.project_id == project_id && r.capability_id == cc.capability_id))

/-- Spec-side count: the number of ProjectRequirement rows of the project
    (duplicate rows for the same capability counted separately) whose
    capability the company holds in some CompanyCapability row. -/
def heldReqCount (db : DB) (project_id : Nat) (c : Company) : Nat :=
  (db.project_requirements.filter (fun r => r.project_id == project_id)).countP
    (fun r => db.company_capabilities.any (fun cc =>
      cc.company_id == c.id && cc.capability_id == r.capability_id))

/- A small concrete store, used to instantiate the theorems below on
   executable inputs: one developer (1), contractors X (2), Y (3), Z (4),
   one project 20 of developer 1 requiring capabilities 100 and 101,
   X holding 100, Y holding 100 and 101, Z holding only 102, and one
   existing prequalification response of X for project 20. -/

def mkCompany (i : Nat) (nm : String) (t : CompanyType) : Company :=
  { id := i, name := nm, company_type := t, country := none, city := none,
    website := none, description := none, size_category := none, created_at := 0 }

def mkCompanyCapability (i cid kid : Nat) : CompanyCapability :=
  { id := i, company_id := cid, capability_id := kid, experience_years := none,
    typical_project_size_m2 := none, typical_contract_value_million := none }

def mkRequirement (i pid kid : Nat) : ProjectRequirement :=
  { id := i, project_id := pid, capability_id := kid,
    min_experience_years := none, min_contract_value_million := none }

def mkProject (i dev : Nat) : Project :=
  { id := i, developer_company_id := dev, name := "P", location := none,
    project_type := none, description := none, built_up_area_m2 := none,
    estimated_budget_million := none, status := ProjectStatus.OPEN, created_at := 0 }

def mkResponse (i pid cid : Nat) (st : PrequalificationStatus) : PrequalificationResponse :=
  { id := i, project_id := pid, contractor_company_id := cid, status := st,
    notes := none, created_at := 0, updated_at := none }

def exampleDb : DB :=
  { companies := [mkCompany 1 "Dev" CompanyType.DEVELOPER,
                  mkCompany 2 "X" CompanyType.CONTRACTOR,
                  mkCompany 3 "Y" CompanyType.CONTRACTOR,
                  mkCompany 4 "Z" CompanyType.CONTRACTOR],
    capabilities := [],
    company_capabilities := [mkCompanyCapability 10 2 100, mkCompanyCapability 11 3 100,
                             mkCompanyCapability 12 3 101, mkCompanyCapability 13 4 102],
    projects := [mkProject 20 1],
    project_requirements := [mkRequirement 30 20 100, mkRequirement 31 20 101],
    prequalification_responses := [mkResponse 35 20 2 PrequalificationStatus.INTERESTED],
    next_id := 40, now := 5 }

/- ------------------------------------------------------------------ -/
/- Helper lemmas: the stable descending sort                           -/
/- ------------------------------------------------------------------ -/

theorem insertByScoreDesc_perm (x : Company × ℚ × Nat) (l : List (Company × ℚ × Nat)) :
    List.Perm (insertByScoreDesc x l) (x :: l) := by
  induction l with
  | nil => simp [insertByScoreDesc]
  | cons y ys ih =>
    by_cases h : y.2.1 < x.2.1
    · simp [insertByScoreDesc, h]
    · simp only [insertByScoreDesc, if_neg h]
      exact (ih.cons y).trans (List.Perm.swap x y ys)

theorem sortByScoreDesc_perm (l : List (Company × ℚ × Nat)) :
    List.Perm (sortByScoreDesc l) l := by
  induction l with
  | nil => simp [sortByScoreDesc]
  | cons x xs ih =>
    exact (insertByScoreDesc_perm x (sortByScoreDesc xs)).trans (ih.cons x)

theorem insertByScoreDesc_pairwise (x : Company × ℚ × Nat)
    (l : List (Company × ℚ × Nat))
    (hl : l.Pairwise (fun a b => b.2.1 ≤ a.2.1)) :
    (insertByScoreDesc x l).Pairwise (fun a b => b.2.1 ≤ a.2.1) := by
  induction l with
  | nil => simp [insertByScoreDesc]
  | cons y ys ih =>
    rcases List.pairwise_cons.mp hl with ⟨hy, hys⟩
    by_cases h : y.2.1 < x.2.1
    · simp only [insertByScoreDesc, if_pos h]
      refine List.pairwise_cons.mpr ⟨?_, hl⟩
      intro z hz
      rcases List.mem_cons.mp hz with rfl | hz
      · exact le_of_lt h
      · exact le_trans (hy z hz) (le_of_lt h)
    · simp only [insertByScoreDesc, if_neg h]
      refine List.pairwise_cons.mpr ⟨?_, ih hys⟩
      intro z hz
      have hz' := (insertByScoreDesc_perm x ys).mem_iff.mp hz
      rcases List.mem_cons.mp hz' with rfl | hz'
      · exact le_of_not_lt h
      · exact hy z hz'

theorem sortByScoreDesc_pairwise (l : List (Company × ℚ × Nat)) :
    (sortByScoreDesc l).Pairwise (fun a b => b.2.1 ≤ a.2.1) := by
  induction l with
  | nil => simp [sortByScoreDesc]
  | cons x xs ih => exact insertByScoreDesc_pairwise x (sortByScoreDesc xs) ih

/- ------------------------------------------------------------------ -/
/- Helper lemmas: counting under uniqueness constraints                -/
/- ------------------------------------------------------------------ -/

theorem natSum_eq_zero_iff (l : List Nat) : l.sum = 0 ↔ ∀ x ∈ l, x = 0 := by
  induction l with
  | nil => simp
  | cons a t ih => simp [Nat.add_eq_zero, ih]

/-- In a list whose elements can satisfy a predicate at most once (pairwise at
    most one of any two), two members satisfying it are equal. -/
theorem eq_of_pred_unique {α : Type} {p : α → Bool} {l : List α}
    (hu : l.Pairwise (fun a b => ¬(p a = true ∧ p b = true)))
    {a b : α} (ha : a ∈ l) (hb : b ∈ l)
    (hpa : p a = true) (hpb : p b = true) : a = b := by
  induction l with
  | nil => cases ha
  | cons x t ih =>
    rcases List.pairwise_cons.mp hu with ⟨hx, ht⟩
    rcases List.mem_cons.mp ha with rfl | ha' <;> rcases List.mem_cons.mp hb with rfl | hb'
    · rfl
    · exact absurd ⟨hpa, hpb⟩ (hx b hb')
    · exact absurd ⟨hpb, hpa⟩ (hx a ha')
    · exact ih ht ha' hb'

theorem find?_eq_some_of_unique {α : Type} {p : α → Bool} {l : List α}
    (hu : l.Pairwise (fun a b => ¬(p a = true ∧ p b = true)))
    {e : α} (he : e ∈ l) (hpe : p e = true) : l.find? p = some e := by
  cases h : l.find? p with
  | none => exact absurd hpe (List.find?_eq_none.mp h e he)
  | some a =>
    have := eq_of_pred_unique hu (List.mem_of_find?_eq_some h) he
      (List.find?_some h) hpe
    rw [this]

theorem countP_eq_one_of_unique {α : Type} {p : α → Bool} {l : List α}
    (hu : l.Pairwise (fun a b => ¬(p a = true ∧ p b = true)))
    {e : α} (he : e ∈ l) (hpe : p e = true) : l.countP p = 1 := by
  induction l with
  | nil => cases he
  | cons x t ih =>
    rcases List.pairwise_cons.mp hu with ⟨hx, ht⟩
    rcases List.mem_cons.mp he with rfl | he'
    · rw [List.countP_cons_of_pos _ _ hpe]
      have h0 : t.countP p = 0 := List.countP_eq_zero.mpr (fun a ha hpa => hx a ha ⟨hpe, hpa⟩)
      rw [h0]
    · have hxf : p x = false := by
        by_contra hfx
        exact hx e he' ⟨Bool.of_not_eq_false hfx, hpe⟩
      rw [List.countP_cons_of_neg _ _ (by simp [hxf]), ih ht he']

/-- In a list with pairwise distinct keys, a member equal in key to another
    member is that member. -/
theorem eq_of_key_unique {α : Type} {f : α → Nat} {l : List α}
    (hu : l.Pairwise (fun a b => f a ≠ f b))
    {a b : α} (ha : a ∈ l) (hb : b ∈ l) (hf : f a = f b) : a = b := by
  induction l with
  | nil => cases ha
  | cons x t ih =>
    rcases List.pairwise_cons.mp hu with ⟨hx, ht⟩
    rcases List.mem_cons.mp ha with rfl | ha' <;> rcases List.mem_cons.mp hb with rfl | hb'
    · rfl
    · exact absurd hf (hx b hb')
    · exact absurd hf.symm (hx a ha')
    · exact ih ht ha' hb'

theorem countP_congr_mem {α : Type} {p q : α → Bool} {l : List α}
    (h : ∀ a ∈ l, p a = q a) : l.countP p = l.countP q :=
  List.countP_congr (fun a ha => by rw [h a ha])

/-- Counting members equal to a fixed element that also satisfy a side
    condition, in a duplicate-free list. -/
theorem countP_decide_eq_and {α : Type} [DecidableEq α] {l : List α}
    (hnd : l.Nodup) (c0 : α) (q : α → Bool) :
    l.countP (fun a => decide (a = c0) && q a) =
      if c0 ∈ l ∧ q c0 = true then 1 else 0 := by
  induction l with
  | nil => simp
  | cons x t ih =>
    rcases List.nodup_cons.mp hnd with ⟨hx, ht⟩
    rw [List.countP_cons, ih ht]
    by_cases hxc : x = c0
    · subst hxc
      have h0 : ¬(x ∈ t ∧ q x = true) := fun h => hx h.1
      rw [if_neg h0]
      by_cases hq : q x = true
      · simp [hq]
      · simp [hq]
    · have hpx : (decide (x = c0) && q x) = false := by simp [hxc]
      rw [hpx]
      have hmem : (c0 ∈ x :: t ∧ q c0 = true) ↔ (c0 ∈ t ∧ q c0 = true) := by
        simp only [List.mem_cons, and_congr_left_iff]
        intro _
        constructor
        · rintro (rfl | hm)
          · exact absurd rfl hxc
          · exact hm
        · exact Or.inr
      rw [if_congr hmem rfl rfl]
      simp

/- ------------------------------------------------------------------ -/
/- Helper lemmas: sums of counts (the grouped join)                    -/
/- ------------------------------------------------------------------ -/

theorem sum_map_add_distrib {α : Type} (f g : α → Nat) (l : List α) :
    (l.map (fun a => f a + g a)).sum = (l.map f).sum + (l.map g).sum := by
  induction l with
  | nil => simp
  | cons a t ih =>
    rw [List.map_cons, List.sum_cons, ih, List.map_cons, List.sum_cons,
      List.map_cons, List.sum_cons]
    omega

theorem sum_map_ite_one {α : Type} (p : α → Bool) (l : List α) :
    (l.map (fun a => if p a then 1 else 0)).sum = l.countP p := by
  induction l with
  | nil => simp
  | cons a t ih =>
    rw [List.map_cons, List.sum_cons, ih, List.countP_cons]
    exact Nat.add_comm _ _

theorem sum_map_ite_zero {α : Type} (p : α → Bool) (f : α → Nat) (l : List α) :
    (l.map (fun a => if p a then f a else 0)).sum = ((l.filter p).map f).sum := by
  induction l with
  | nil => simp
  | cons a t ih =>
    by_cases h : p a
    · simp [List.filter_cons, h, ih]
    · simp [List.filter_cons, h, ih]

theorem sum_length_filter_comm {α β : Type} (P : α → β → Bool)
    (l₁ : List α) (l₂ : List β) :
    (l₁.map (fun a => (l₂.filter (fun b => P a b)).length)).sum
      = (l₂.map (fun b => (l₁.filter (fun a => P a b)).length)).sum := by
  induction l₁ with
  | nil => simp
  | cons a t ih =>
    rw [List.map_cons, List.sum_cons, ih]
    have hstep : ∀ b : β, ((a :: t).filter (fun x => P x b)).length
        = (if P a b then 1 else 0) + (t.filter (fun x => P x b)).length := by
      intro b
      by_cases h : P a b <;> simp [List.filter_cons, h, Nat.add_comm]
    simp only [hstep]
    rw [sum_map_add_distrib (fun b => if P a b then 1 else 0)
      (fun b => (t.filter (fun x => P x b)).length) l₂,
      sum_map_ite_one, List.countP_eq_length_filter]

theorem filter_length_ne_zero_iff {α : Type} (p : α → Bool) (l : List α) :
    (l.filter p).length ≠ 0 ↔ ∃ a, a ∈ l ∧ p a = true := by
  rw [Ne, List.length_eq_zero, List.filter_eq_nil_iff]
  push_neg
  constructor
  · rintro ⟨a, ha, hpa⟩
    exact ⟨a, ha, by simpa using hpa⟩
  · rintro ⟨a, ha, hpa⟩
    exact ⟨a, ha, by simpa using hpa⟩

theorem length_filter_eq_of_key_unique {α : Type} {f : α → Nat} {l : List α}
    (hu : l.Pairwise (fun a b => f a ≠ f b)) (k : Nat) :
    (l.filter (fun a => f a == k)).length
      = if l.any (fun a => f a == k) then 1 else 0 := by
  induction l with
  | nil => simp
  | cons x t ih =>
    rcases List.pairwise_cons.mp hu with ⟨hx, ht⟩
    by_cases h : (f x == k) = true
    · have h0 : t.filter (fun a => f a == k) = [] := by
        rw [List.filter_eq_nil_iff]
        intro a ha
        have hne : f a ≠ k := by
          intro hk
          exact hx a ha (by rw [beq_iff_eq] at h; rw [h, hk])
        simp [hne]
      simp [List.filter_cons, h, h0, List.any_cons]
    · simp [List.filter_cons, h, List.any_cons, ih ht]

/- ------------------------------------------------------------------ -/
/- Helper lemmas: the matching engine                                  -/
/- ------------------------------------------------------------------ -/

theorem matchedPairCount_eq_sum_over_reqs (db : DB) (pid : Nat) (c : Company) :
    matchedPairCount db pid c
      = ((db.project_requirements.filter (fun r => r.project_id == pid)).map
          (fun r => ((db.company_capabilities.filter
            (fun cc => cc.company_id == c.id)).filter
              (fun cc => cc.capability_id == r.capability_id)).length)).sum := by
  unfold matchedPairCount
  rw [sum_length_filter_comm
    (fun (cc : CompanyCapability) (r : ProjectRequirement) =>
      r.project_id == pid && cc.capability_id == r.capability_id)
    (db.company_capabilities.filter (fun cc => cc.company_id == c.id))
    db.project_requirements]
  have hstep : ∀ r : ProjectRequirement,
      ((db.company_capabilities.filter (fun cc => cc.company_id == c.id)).filter
        (fun cc => r.project_id == pid && cc.capability_id == r.capability_id)).length
      = if r.project_id == pid then
          ((db.company_capabilities.filter (fun cc => cc.company_id == c.id)).filter
            (fun cc => cc.capability_id == r.capability_id)).length
        else 0 := by
    intro r
    by_cases h : (r.project_id == pid) = true
    · simp [h]
    · simp [h]
  simp only [hstep]
  rw [sum_map_ite_zero]

theorem matchedPairCount_eq_heldReqCount (db : DB) (pid : Nat) (c : Company)
    (hcc : db.company_capabilities.Pairwise
      (fun a b => ¬(a.company_id = b.company_id ∧ a.capability_id = b.capability_id))) :
    matchedPairCount db pid c = heldReqCount db pid c := by
  rw [matchedPairCount_eq_sum_over_reqs]
  unfold heldReqCount
  have hdist : (db.company_capabilities.filter
      (fun cc => cc.company_id == c.id)).Pairwise
        (fun a b => a.capability_id ≠ b.capability_id) := by
    refine (hcc.filter (fun cc => cc.company_id == c.id)).imp_of_mem ?_
    intro a b ha hb hnab hcap
    have ha' := (List.mem_filter.mp ha).2
    have hb' := (List.mem_filter.mp hb).2
    rw [beq_iff_eq] at ha' hb'
    exact hnab ⟨by rw [ha', hb'], hcap⟩
  have hlen : ∀ r : ProjectRequirement,
      ((db.company_capabilities.filter (fun cc => cc.company_id == c.id)).filter
        (fun cc => cc.capability_id == r.capability_id)).length
      = if (db.company_capabilities.filter (fun cc => cc.company_id == c.id)).any
            (fun cc => cc.capability_id == r.capability_id) then 1 else 0 :=
    fun r => length_filter_eq_of_key_unique hdist r.capability_id
  simp only [hlen]
  rw [sum_map_ite_one]
  apply countP_congr_mem
  intro r _
  rw [List.any_filter]

theorem matchedPairCount_ne_zero_iff (db : DB) (pid : Nat) (c : Company) :
    matchedPairCount db pid c ≠ 0 ↔ hasOverlap db pid c = true := by
  unfold matchedPairCount hasOverlap
  rw [Ne, natSum_eq_zero_iff]
  push_neg
  constructor
  · rintro ⟨x, hx, hxne⟩
    rcases List.mem_map.mp hx with ⟨cc, hccmem, rfl⟩
    rcases List.mem_filter.mp hccmem with ⟨hccl, hcid⟩
    rcases (filter_length_ne_zero_iff _ _).mp hxne with ⟨r, hr, hpr⟩
    rw [List.any_eq_true]
    refine ⟨cc, hccl, ?_⟩
    rw [Bool.and_eq_true_iff]
    refine ⟨hcid, ?_⟩
    rw [List.any_eq_true]
    rcases Bool.and_eq_true_iff.mp hpr with ⟨hp1, hp2⟩
    refine ⟨r, hr, ?_⟩
    rw [beq_iff_eq] at hp2
    exact Bool.and_eq_true_iff.mpr ⟨hp1, by simp [hp2]⟩
  · intro hov
    rcases List.any_eq_true.mp hov with ⟨cc, hccl, hcc2⟩
    rcases Bool.and_eq_true_iff.mp hcc2 with ⟨hcid, hany⟩
    rcases List.any_eq_true.mp hany with ⟨r, hr, hrp⟩
    rcases Bool.and_eq_true_iff.mp hrp with ⟨hp1, hp2⟩
    refine ⟨((db.project_requirements.filter (fun r => r.project_id == pid &&
        cc.capability_id == r.capability_id)).length), ?_, ?_⟩
    · exact List.mem_map.mpr ⟨cc, List.mem_filter.mpr ⟨hccl, hcid⟩, rfl⟩
    · refine (filter_length_ne_zero_iff _ _).mpr ⟨r, hr, ?_⟩
      rw [beq_iff_eq] at hp2
      exact Bool.and_eq_true_iff.mpr ⟨hp1, by simp [hp2]⟩

theorem hasOverlap_eq_false_of_no_req (db : DB) (pid : Nat) (c : Company)
    (h : ∀ r ∈ db.project_requirements, ¬ r.project_id = pid) :
    hasOverlap db pid c = false := by
  cases hov : hasOverlap db pid c
  · rfl
  · exfalso
    rcases List.any_eq_true.mp hov with ⟨cc, hccl, h2⟩
    rcases Bool.and_eq_true_iff.mp h2 with ⟨_, hany⟩
    rcases List.any_eq_true.mp hany with ⟨r, hr, hrp⟩
    rcases Bool.and_eq_true_iff.mp hrp with ⟨hp1, _⟩
    exact h r hr (beq_iff_eq.mp hp1)

theorem countP_joinGroupRows (db : DB) (pid : Nat) (c0 : Company)
    (hids : db.companies.Pairwise (fun a b => a.id ≠ b.id)) :
    (joinGroupRows db pid).countP (fun row => decide (row.1 = c0)) =
      if c0 ∈ db.companies ∧ c0.company_type = CompanyType.CONTRACTOR ∧
          hasOverlap db pid c0 = true then 1 else 0 := by
  have hnodup : db.companies.Nodup :=
    List.Pairwise.imp (fun h heq => h (congrArg Company.id heq)) hids
  unfold joinGroupRows
  rw [List.countP_filterMap]
  have hpred : ∀ cmp : Company,
      (((if matchedPairCount db pid cmp == 0 then none
          else some (cmp, matchedPairCount db pid cmp)).map
        (fun row : Company × Nat => decide (row.1 = c0))).getD false)
      = (decide (cmp = c0) && !(matchedPairCount db pid cmp == 0)) := by
    intro cmp
    by_cases h : (matchedPairCount db pid cmp == 0) = true
    · simp [h]
    · simp [h]
  simp only [hpred]
  rw [List.countP_filter]
  have hassoc : ∀ cmp : Company,
      ((decide (cmp = c0) && !(matchedPairCount db pid cmp == 0)) &&
        decide (cmp.company_type = CompanyType.CONTRACTOR))
      = (decide (cmp = c0) && (!(matchedPairCount db pid cmp == 0) &&
          decide (cmp.company_type = CompanyType.CONTRACTOR))) := by
    intro cmp
    rw [Bool.and_assoc]
  rw [countP_congr_mem (fun a _ => hassoc a)]
  rw [countP_decide_eq_and hnodup c0
    (fun cmp => !(matchedPairCount db pid cmp == 0) &&
      decide (cmp.company_type = CompanyType.CONTRACTOR))]
  refine if_congr ?_ rfl rfl
  constructor
  · rintro ⟨hm, hq⟩
    rcases Bool.and_eq_true_iff.mp hq with ⟨h1, h2⟩
    refine ⟨hm, of_decide_eq_true h2, ?_⟩
    rw [← matchedPairCount_ne_zero_iff]
    intro h0
    rw [h0] at h1
    simp at h1
  · rintro ⟨hm, hct, hov⟩
    refine ⟨hm, Bool.and_eq_true_iff.mpr ⟨?_, decide_eq_true hct⟩⟩
    have hne := (matchedPairCount_ne_zero_iff db pid c0).mpr hov
    cases h : (matchedPairCount db pid c0 == 0) with
    | false => rfl
    | true => exact absurd (beq_iff_eq.mp h) hne

/- ------------------------------------------------------------------ -/
/- Claims about the matching engine                                    -/
/- ------------------------------------------------------------------ -/

/-- C1: for every stored state (primary keys unique, requirement rows
referencing existing projects) and every project id, the match result
contains exactly one tuple for each Contractor company whose held capability
ids intersect the capability ids of the project requirement rows, and no
tuple for any other company. -/
theorem match_contains_exactly_overlapping_contractors (db : DB) (pid : Nat)
    (c0 : Company)
    (hids : db.companies.Pairwise (fun a b => a.id ≠ b.id))
    (hfk : ∀ r ∈ db.project_requirements, ∃ p ∈ db.projects, p.id = r.project_id) :
    (match_contractors_for_project db pid).countP (fun t => decide (t.1 = c0)) =
      if c0 ∈ db.companies ∧ c0.company_type = CompanyType.CONTRACTOR ∧
          hasOverlap db pid c0 = true then 1 else 0 := by
  unfold match_contractors_for_project
  cases hfind : db.projects.find? (fun p => p.id == pid) with
  | none =>
    have hnoreq : ∀ r ∈ db.project_requirements, ¬ r.project_id = pid := by
      intro r hr hrp
      rcases hfk r hr with ⟨p, hp, hpid⟩
      exact List.find?_eq_none.mp hfind p hp (beq_iff_eq.mpr (by rw [hpid, hrp]))
    have hnov := hasOverlap_eq_false_of_no_req db pid c0 hnoreq
    rw [List.countP_nil, if_neg]
    rintro ⟨_, _, hov⟩
    rw [hnov] at hov
    cases hov
  | some proj =>
    by_cases hreq :
        (db.project_requirements.filter (fun r => r.project_id == pid)).isEmpty = true
    · have hnoreq : ∀ r ∈ db.project_requirements, ¬ r.project_id = pid := by
        intro r hr hrp
        exact List.filter_eq_nil_iff.mp (List.isEmpty_iff.mp hreq) r hr
          (beq_iff_eq.mpr hrp)
      have hnov := hasOverlap_eq_false_of_no_req db pid c0 hnoreq
      rw [if_pos hreq, List.countP_nil, if_neg]
      rintro ⟨_, _, hov⟩
      rw [hnov] at hov
      cases hov
    · rw [if_neg hreq, (sortByScoreDesc_perm _).countP_eq, List.countP_map,
        ← countP_joinGroupRows db pid c0 hids]
      apply countP_congr_mem
      intro a _
      rfl

theorem match_contains_exactly_overlapping_contractors_witness :
    (match_contractors_for_project exampleDb 20).countP
        (fun t => decide (t.1 = mkCompany 3 "Y" CompanyType.CONTRACTOR)) =
      if mkCompany 3 "Y" CompanyType.CONTRACTOR ∈ exampleDb.companies ∧
          (mkCompany 3 "Y" CompanyType.CONTRACTOR).company_type =
            CompanyType.CONTRACTOR ∧
          hasOverlap exampleDb 20 (mkCompany 3 "Y" CompanyType.CONTRACTOR) = true
      then 1 else 0 :=
  match_contains_exactly_overlapping_contractors exampleDb 20
    (mkCompany 3 "Y" CompanyType.CONTRACTOR) (by decide) (by decide)

/-- C2: every tuple returned by match carries matched_count equal to the
number of ProjectRequirement rows of the project (duplicates counted) whose
capability the contractor holds, and score equal to that count cast to ℚ. -/
theorem match_count_and_score_correct (db : DB) (pid : Nat)
    (hcc : db.company_capabilities.Pairwise
      (fun a b => ¬(a.company_id = b.company_id ∧ a.capability_id = b.capability_id)))
    (t : Company × ℚ × Nat) (ht : t ∈ match_contractors_for_project db pid) :
    t.2.2 = heldReqCount db pid t.1 ∧ t.2.1 = (t.2.2 : ℚ) := by
  unfold match_contractors_for_project at ht
  cases hfind : db.projects.find? (fun p => p.id == pid) with
  | none =>
    rw [hfind] at ht
    simp at ht
  | some proj =>
    rw [hfind] at ht
    by_cases hreq :
        (db.project_requirements.filter (fun r => r.project_id == pid)).isEmpty = true
    · rw [if_pos hreq] at ht
      simp at ht
    · rw [if_neg hreq] at ht
      have ht2 := (sortByScoreDesc_perm _).mem_iff.mp ht
      rcases List.mem_map.mp ht2 with ⟨row, hrow, rfl⟩
      unfold joinGroupRows at hrow
      rcases List.mem_filterMap.mp hrow with ⟨cmp, _, hsome⟩
      by_cases h0 : (matchedPairCount db pid cmp == 0) = true
      · rw [if_pos h0] at hsome
        cases hsome
      · rw [if_neg h0] at hsome
        have hpair := Option.some.inj hsome
        rw [← hpair]
        exact ⟨matchedPairCount_eq_heldReqCount db pid cmp hcc, rfl⟩

theorem match_count_and_score_correct_witness :
    (mkCompany 3 "Y" CompanyType.CONTRACTOR, (2 : ℚ), 2).2.2 =
        heldReqCount exampleDb 20 (mkCompany 3 "Y" CompanyType.CONTRACTOR, (2 : ℚ), 2).1 ∧
      (mkCompany 3 "Y" CompanyType.CONTRACTOR, (2 : ℚ), 2).2.1 =
        (((mkCompany 3 "Y" CompanyType.CONTRACTOR, (2 : ℚ), 2).2.2 : Nat) : ℚ) :=
  match_count_and_score_correct exampleDb 20 (by decide)
    (mkCompany 3 "Y" CompanyType.CONTRACTOR, (2 : ℚ), 2) (by decide)

/-- C4: match returns the empty list both when the project id is absent from
the store and when no requirement row belongs to the project. -/
theorem match_empty_on_missing_or_no_reqs (db : DB) (pid : Nat) :
    ((∀ p ∈ db.projects, ¬ p.id = pid) →
      match_contractors_for_project db pid = []) ∧
    ((∀ r ∈ db.project_requirements, ¬ r.project_id = pid) →
      match_contractors_for_project db pid = []) := by
  constructor
  · intro h
    unfold match_contractors_for_project
    have hfind : db.projects.find? (fun p => p.id == pid) = none :=
      List.find?_eq_none.mpr (fun p hp hb => h p hp (beq_iff_eq.mp hb))
    rw [hfind]
  · intro h
    unfold match_contractors_for_project
    cases hfind : db.projects.find? (fun p => p.id == pid) with
    | none => rfl
    | some proj =>
      have hreq :
          (db.project_requirements.filter (fun r => r.project_id == pid)).isEmpty = true := by
        rw [List.isEmpty_iff]
        exact List.filter_eq_nil_iff.mpr (fun r hr hb => h r hr (beq_iff_eq.mp hb))
      rw [if_pos hreq]

theorem match_empty_on_missing_or_no_reqs_witness :
    match_contractors_for_project exampleDb 99 = [] ∧
      match_contractors_for_project exampleDb 1 = [] :=
  ⟨(match_empty_on_missing_or_no_reqs exampleDb 99).1 (by decide),
   (match_empty_on_missing_or_no_reqs exampleDb 1).2 (by decide)⟩

/-- C5: the list returned by match is sorted non-increasingly by score:
every adjacent pair has earlier score greater or equal to the later score. -/
theorem match_sorted_by_score_desc (db : DB) (pid : Nat) :
    List.Chain' (fun a b : Company × ℚ × Nat => b.2.1 ≤ a.2.1)
      (match_contractors_for_project db pid) := by
  unfold match_contractors_for_project
  cases hfind : db.projects.find? (fun p => p.id == pid) with
  | none => simp
  | some proj =>
    by_cases hreq :
        (db.project_requirements.filter (fun r => r.project_id == pid)).isEmpty = true
    · rw [if_pos hreq]
      simp
    · rw [if_neg hreq]
      exact (sortByScoreDesc_pairwise _).chain'

/- ------------------------------------------------------------------ -/
/- Helper lemmas: the prequalification workflow                        -/
/- ------------------------------------------------------------------ -/

theorem resp_pairb_pairwise {l : List PrequalificationResponse} {p c : Nat}
    (hpair : l.Pairwise (fun a b =>
      ¬(a.project_id = b.project_id ∧
        a.contractor_company_id = b.contractor_company_id))) :
    l.Pairwise (fun a b =>
      ¬((a.project_id == p && a.contractor_company_id == c) = true ∧
        (b.project_id == p && b.contractor_company_id == c) = true)) := by
  refine hpair.imp (fun hn => ?_)
  rintro ⟨ha, hb⟩
  rcases Bool.and_eq_true_iff.mp ha with ⟨ha1, ha2⟩
  rcases Bool.and_eq_true_iff.mp hb with ⟨hb1, hb2⟩
  rw [beq_iff_eq] at ha1 ha2 hb1 hb2
  exact hn ⟨by rw [ha1, hb1], by rw [ha2, hb2]⟩

theorem resp_find_unique (l : List PrequalificationResponse) (p c : Nat)
    (hpair : l.Pairwise (fun a b =>
      ¬(a.project_id = b.project_id ∧
        a.contractor_company_id = b.contractor_company_id)))
    {e : PrequalificationResponse} (he : e ∈ l) (hep : e.project_id = p)
    (hec : e.contractor_company_id = c) :
    l.find? (fun r => r.project_id == p && r.contractor_company_id == c) = some e := by
  apply find?_eq_some_of_unique (resp_pairb_pairwise hpair) he
  rw [Bool.and_eq_true_iff, beq_iff_eq, beq_iff_eq]
  exact ⟨hep, hec⟩

theorem resp_replace_fields {l : List PrequalificationResponse}
    (hid : l.Pairwise (fun a b => a.id ≠ b.id))
    {e : PrequalificationResponse} (he : e ∈ l)
    (upd : PrequalificationResponse)
    (hupd_pid : upd.project_id = e.project_id)
    (hupd_cid : upd.contractor_company_id = e.contractor_company_id)
    (hupd_id : upd.id = e.id) (hupd_created : upd.created_at = e.created_at)
    {a : PrequalificationResponse} (ha : a ∈ l) :
    (if a.id == e.id then upd else a).project_id = a.project_id ∧
      (if a.id == e.id then upd else a).contractor_company_id =
        a.contractor_company_id ∧
      (if a.id == e.id then upd else a).id = a.id ∧
      (if a.id == e.id then upd else a).created_at = a.created_at := by
  by_cases h : (a.id == e.id) = true
  · have hae : a = e :=
      eq_of_key_unique (f := PrequalificationResponse.id) hid ha he (beq_iff_eq.mp h)
    subst hae
    simp [h, hupd_pid, hupd_cid, hupd_id, hupd_created]
  · simp [h]

/- ------------------------------------------------------------------ -/
/- Claims about the prequalification workflow                          -/
/- ------------------------------------------------------------------ -/

/-- C3: upserting a response for a (project, contractor) pair that already
has a row creates no second row: total row count and the per-project row
count are unchanged, the returned id is the pre-existing id, and the
at-most-one-response-per-pair invariant is preserved by every call. -/
theorem upsert_response_existing_pair_keeps_rows (db : DB) (p c : Nat)
    (s : PrequalificationStatus) (n : Option String)
    (hid : db.prequalification_responses.Pairwise (fun a b => a.id ≠ b.id))
    (hpair : db.prequalification_responses.Pairwise (fun a b =>
      ¬(a.project_id = b.project_id ∧
        a.contractor_company_id = b.contractor_company_id))) :
    (∀ e ∈ db.prequalification_responses,
      e.project_id = p → e.contractor_company_id = c →
      ((create_or_update_prequalification_response db p c s
            n).1.prequalification_responses.length
          = db.prequalification_responses.length ∧
        (list_prequalification_responses_for_project
            (create_or_update_prequalification_response db p c s n).1 p).length
          = (list_prequalification_responses_for_project db p).length ∧
        (create_or_update_prequalification_response db p c s n).2.id = e.id)) ∧
    (create_or_update_prequalification_response db p c s
        n).1.prequalification_responses.Pairwise
      (fun a b =>
        ¬(a.project_id = b.project_id ∧
          a.contractor_company_id = b.contractor_company_id)) := by
  constructor
  · intro e he hep hec
    have hfind := resp_find_unique db.prequalification_responses p c hpair he hep hec
    unfold create_or_update_prequalification_response
    rw [hfind]
    refine ⟨by simp, ?_, rfl⟩
    unfold list_prequalification_responses_for_project
    rw [← List.countP_eq_length_filter, ← List.countP_eq_length_filter,
      List.countP_map]
    apply countP_congr_mem
    intro a ha
    rcases resp_replace_fields hid he
      { e with status := s, notes := n, updated_at := some db.now }
      rfl rfl rfl rfl ha with ⟨hpa, _, _, _⟩
    simp only [Function.comp_apply, hpa]
  · unfold create_or_update_prequalification_response
    cases hfind : db.prequalification_responses.find?
        (fun r => r.project_id == p && r.contractor_company_id == c) with
    | some e =>
      have he := List.mem_of_find?_eq_some hfind
      refine List.pairwise_map.mpr (hpair.imp_of_mem ?_)
      intro a b ha hb hn hcontra
      rcases hcontra with ⟨h1, h2⟩
      rcases resp_replace_fields hid he
        { e with status := s, notes := n, updated_at := some db.now }
        rfl rfl rfl rfl ha with ⟨hpa, hca, _, _⟩
      rcases resp_replace_fields hid he
        { e with status := s, notes := n, updated_at := some db.now }
        rfl rfl rfl rfl hb with ⟨hpb, hcb, _, _⟩
      rw [hpa, hpb] at h1
      rw [hca, hcb] at h2
      exact hn ⟨h1, h2⟩
    | none =>
      rw [List.pairwise_append]
      refine ⟨hpair, List.pairwise_singleton _ _, ?_⟩
      intro a ha b hb
      rw [List.mem_singleton] at hb
      subst hb
      rintro ⟨h1, h2⟩
      apply List.find?_eq_none.mp hfind a ha
      rw [Bool.and_eq_true_iff, beq_iff_eq, beq_iff_eq]
      exact ⟨h1, h2⟩

theorem upsert_response_existing_pair_keeps_rows_witness :
    (create_or_update_prequalification_response exampleDb 20 2
        PrequalificationStatus.REJECTED
        (some "no")).1.prequalification_responses.length
      = exampleDb.prequalification_responses.length ∧
    (list_prequalification_responses_for_project
        (create_or_update_prequalification_response exampleDb 20 2
          PrequalificationStatus.REJECTED (some "no")).1 20).length
      = (list_prequalification_responses_for_project exampleDb 20).length ∧
    (create_or_update_prequalification_response exampleDb 20 2
        PrequalificationStatus.REJECTED (some "no")).2.id
      = (mkResponse 35 20 2 PrequalificationStatus.INTERESTED).id :=
  (upsert_response_existing_pair_keeps_rows exampleDb 20 2
      PrequalificationStatus.REJECTED (some "no") (by decide) (by decide)).1
    (mkResponse 35 20 2 PrequalificationStatus.INTERESTED)
    (by decide) (by decide) (by decide)

theorem upsert_response_update_eq (db : DB) (p c : Nat)
    (s : PrequalificationStatus) (n : Option String)
    (e : PrequalificationResponse)
    (hfind : db.prequalification_responses.find?
      (fun r => r.project_id == p && r.contractor_company_id == c) = some e) :
    create_or_update_prequalification_response db p c s n =
      ({ db with
          prequalification_responses := db.prequalification_responses.map
            (fun resp => if resp.id == e.id then
              { e with status := s, notes := n, updated_at := some db.now }
              else resp),
          now := db.now + 1 },
       { e with status := s, notes := n, updated_at := some db.now }) := by
  unfold create_or_update_prequalification_response
  rw [hfind]

theorem upsert_response_insert_eq (db : DB) (p c : Nat)
    (s : PrequalificationStatus) (n : Option String)
    (hfind : db.prequalification_responses.find?
      (fun r => r.project_id == p && r.contractor_company_id == c) = none) :
    create_or_update_prequalification_response db p c s n =
      ({ db with
          prequalification_responses := db.prequalification_responses ++
            [{ id := db.next_id, project_id := p, contractor_company_id := c,
               status := s, notes := n, created_at := db.now, updated_at := none }],
          next_id := db.next_id + 1, now := db.now + 1 },
       { id := db.next_id, project_id := p, contractor_company_id := c,
         status := s, notes := n, created_at := db.now, updated_at := none }) := by
  unfold create_or_update_prequalification_response
  rw [hfind]

/-- C6: after upsert(p, c, Shortlisted, "ok"), listing the responses of
project p yields exactly one entry for contractor c, and that entry has
status Shortlisted and notes "ok". -/
theorem upsert_then_list_roundtrip (db : DB) (p c : Nat)
    (hid : db.prequalification_responses.Pairwise (fun a b => a.id ≠ b.id))
    (hpair : db.prequalification_responses.Pairwise (fun a b =>
      ¬(a.project_id = b.project_id ∧
        a.contractor_company_id = b.contractor_company_id))) :
    (list_prequalification_responses_for_project
        (create_or_update_prequalification_response db p c
          PrequalificationStatus.SHORTLISTED (some "ok")).1 p).countP
      (fun r => r.contractor_company_id == c) = 1 ∧
    ∀ r ∈ list_prequalification_responses_for_project
        (create_or_update_prequalification_response db p c
          PrequalificationStatus.SHORTLISTED (some "ok")).1 p,
      r.contractor_company_id = c →
        r.status = PrequalificationStatus.SHORTLISTED ∧ r.notes = some "ok" := by
  cases hfind : db.prequalification_responses.find?
      (fun r => r.project_id == p && r.contractor_company_id == c) with
  | some e =>
    have he := List.mem_of_find?_eq_some hfind
    have hpe := List.find?_some hfind
    rcases Bool.and_eq_true_iff.mp hpe with ⟨hep, hec⟩
    rw [beq_iff_eq] at hep hec
    rw [upsert_response_update_eq db p c PrequalificationStatus.SHORTLISTED
      (some "ok") e hfind]
    unfold list_prequalification_responses_for_project
    dsimp only
    constructor
    · rw [List.countP_filter, List.countP_map]
      have hcongr : ∀ a ∈ db.prequalification_responses,
          ((fun r : PrequalificationResponse =>
              r.contractor_company_id == c && r.project_id == p) ∘
            (fun resp => if resp.id == e.id then
              { e with
                status := PrequalificationStatus.SHORTLISTED,
                notes := some "ok", updated_at := some db.now }
              else resp)) a
          = (a.project_id == p && a.contractor_company_id == c) := by
        intro a ha
        rcases resp_replace_fields hid he
          { e with
            status := PrequalificationStatus.SHORTLISTED,
            notes := some "ok", updated_at := some db.now }
          rfl rfl rfl rfl ha with ⟨hpa, hca, _, _⟩
        simp only [Function.comp_apply, hpa, hca]
        rw [Bool.and_comm]
      rw [countP_congr_mem hcongr]
      apply countP_eq_one_of_unique (resp_pairb_pairwise hpair) he
      rw [Bool.and_eq_true_iff, beq_iff_eq, beq_iff_eq]
      exact ⟨hep, hec⟩
    · intro r hr hrc
      rcases List.mem_filter.mp hr with ⟨hrm, hrp⟩
      rcases List.mem_map.mp hrm with ⟨a, ha, rfl⟩
      by_cases hida : (a.id == e.id) = true
      · rw [if_pos hida]
        exact ⟨rfl, rfl⟩
      · rw [if_neg hida] at hrp hrc ⊢
        exfalso
        have hfa := resp_find_unique db.prequalification_responses p c hpair ha
          (beq_iff_eq.mp hrp) hrc
        rw [hfind] at hfa
        have hae : a = e := (Option.some.inj hfa).symm
        rw [hae] at hida
        simp at hida
  | none =>
    rw [upsert_response_insert_eq db p c PrequalificationStatus.SHORTLISTED
      (some "ok") hfind]
    unfold list_prequalification_responses_for_project
    dsimp only
    constructor
    · rw [List.filter_append, List.countP_append]
      have h1 : ((db.prequalification_responses.filter
          (fun r => r.project_id == p)).countP
            (fun r => r.contractor_company_id == c)) = 0 := by
        rw [List.countP_filter]
        apply List.countP_eq_zero.mpr
        intro a ha hpa
        rcases Bool.and_eq_true_iff.mp hpa with ⟨h2, h3⟩
        exact List.find?_eq_none.mp hfind a ha
          (Bool.and_eq_true_iff.mpr ⟨h3, h2⟩)
      rw [h1]
      simp
    · intro r hr hrc
      rw [List.filter_append] at hr
      rcases List.mem_append.mp hr with hr | hr
      · exfalso
        rcases List.mem_filter.mp hr with ⟨hra, hrp⟩
        exact List.find?_eq_none.mp hfind r hra
          (Bool.and_eq_true_iff.mpr ⟨hrp, beq_iff_eq.mpr hrc⟩)
      · have hrs := List.mem_of_mem_filter hr
        rw [List.mem_singleton] at hrs
        subst hrs
        exact ⟨rfl, rfl⟩

theorem upsert_then_list_roundtrip_witness :
    (list_prequalification_responses_for_project
        (create_or_update_prequalification_response exampleDb 20 3
          PrequalificationStatus.SHORTLISTED (some "ok")).1 20).countP
      (fun r => r.contractor_company_id == 3) = 1 ∧
    ∀ r ∈ list_prequalification_responses_for_project
        (create_or_update_prequalification_response exampleDb 20 3
          PrequalificationStatus.SHORTLISTED (some "ok")).1 20,
      r.contractor_company_id = 3 →
        r.status = PrequalificationStatus.SHORTLISTED ∧ r.notes = some "ok" :=
  upsert_then_list_roundtrip exampleDb 20 3 (by decide) (by decide)

/-- C7: the workflow restricts no status transition: any existing response is
overwritten to any new status; and the Interested-then-Rejected double upsert
on a fresh pair leaves exactly one row for the pair, with status Rejected and
an updated_at stamped strictly after its created_at. -/
theorem upsert_no_transition_restriction (db : DB) (p c : Nat)
    (hpair : db.prequalification_responses.Pairwise (fun a b =>
      ¬(a.project_id = b.project_id ∧
        a.contractor_company_id = b.contractor_company_id)))
    (hfresh : ∀ r ∈ db.prequalification_responses, r.id < db.next_id) :
    (∀ (s : PrequalificationStatus) (n : Option String),
      ∀ e ∈ db.prequalification_responses,
        e.project_id = p → e.contractor_company_id = c →
          ((create_or_update_prequalification_response db p c s n).2.status = s ∧
           (create_or_update_prequalification_response db p c s n).2.notes = n ∧
           ∀ r ∈ (create_or_update_prequalification_response db p c s
               n).1.prequalification_responses,
             r.project_id = p → r.contractor_company_id = c → r.status = s)) ∧
    ((∀ r ∈ db.prequalification_responses,
        ¬(r.project_id = p ∧ r.contractor_company_id = c)) →
      ∀ (m k : Option String),
        ((create_or_update_prequalification_response
            (create_or_update_prequalification_response db p c
              PrequalificationStatus.INTERESTED m).1 p c
            PrequalificationStatus.REJECTED
            k).1.prequalification_responses.countP
          (fun r => r.project_id == p && r.contractor_company_id == c) = 1 ∧
         ∀ r ∈ (create_or_update_prequalification_response
            (create_or_update_prequalification_response db p c
              PrequalificationStatus.INTERESTED m).1 p c
            PrequalificationStatus.REJECTED k).1.prequalification_responses,
           r.project_id = p → r.contractor_company_id = c →
             r.status = PrequalificationStatus.REJECTED ∧
             ∃ t, r.updated_at = some t ∧ r.created_at < t)) := by
  constructor
  · intro s n e he hep hec
    have hfind := resp_find_unique db.prequalification_responses p c hpair he hep hec
    rw [upsert_response_update_eq db p c s n e hfind]
    dsimp only
    refine ⟨rfl, rfl, ?_⟩
    intro r hr hrp hrc
    rcases List.mem_map.mp hr with ⟨a, ha, rfl⟩
    by_cases hida : (a.id == e.id) = true
    · rw [if_pos hida]
    · rw [if_neg hida] at hrp hrc ⊢
      exfalso
      have hfa := resp_find_unique db.prequalification_responses p c hpair ha hrp hrc
      rw [hfind] at hfa
      have hae : a = e := (Option.some.inj hfa).symm
      rw [hae] at hida
      simp at hida
  · intro hno m k
    have hfind1 : db.prequalification_responses.find?
        (fun r => r.project_id == p && r.contractor_company_id == c) = none := by
      apply List.find?_eq_none.mpr
      intro r hr hb
      rcases Bool.and_eq_true_iff.mp hb with ⟨hb1, hb2⟩
      exact hno r hr ⟨beq_iff_eq.mp hb1, beq_iff_eq.mp hb2⟩
    have hrepl : ∀ (x : PrequalificationResponse),
        ∀ a ∈ db.prequalification_responses,
        (if a.id == db.next_id then x else a) = a := by
      intro x a ha
      have hne : a.id ≠ db.next_id := Nat.ne_of_lt (hfresh a ha)
      simp [hne]
    rw [upsert_response_insert_eq db p c PrequalificationStatus.INTERESTED m hfind1]
    dsimp only
    have hfind2 : (db.prequalification_responses ++
        [({ id := db.next_id, project_id := p, contractor_company_id := c,
            status := PrequalificationStatus.INTERESTED, notes := m,
            created_at := db.now, updated_at := none } :
          PrequalificationResponse)]).find?
        (fun r => r.project_id == p && r.contractor_company_id == c) = some
        { id := db.next_id, project_id := p, contractor_company_id := c,
          status := PrequalificationStatus.INTERESTED, notes := m,
          created_at := db.now, updated_at := none } := by
      rw [List.find?_append, hfind1]
      simp
    rw [upsert_response_update_eq
      { db with
        prequalification_responses := db.prequalification_responses ++
          [{ id := db.next_id, project_id := p, contractor_company_id := c,
             status := PrequalificationStatus.INTERESTED, notes := m,
             created_at := db.now, updated_at := none }],
        next_id := db.next_id + 1, now := db.now + 1 }
      p c PrequalificationStatus.REJECTED k
      { id := db.next_id, project_id := p, contractor_company_id := c,
        status := PrequalificationStatus.INTERESTED, notes := m,
        created_at := db.now, updated_at := none }
      hfind2]
    dsimp only
    constructor
    · rw [List.countP_map, List.countP_append]
      have hl0 : db.prequalification_responses.countP
          ((fun r : PrequalificationResponse =>
            r.project_id == p && r.contractor_company_id == c) ∘
           (fun resp => if resp.id == db.next_id then
             { id := db.next_id, project_id := p, contractor_company_id := c,
               status := PrequalificationStatus.REJECTED, notes := k,
               created_at := db.now, updated_at := some (db.now + 1) }
             else resp)) = 0 := by
        apply List.countP_eq_zero.mpr
        intro a ha hcomp
        simp only [Function.comp_apply] at hcomp
        rw [hrepl _ a ha] at hcomp
        rcases Bool.and_eq_true_iff.mp hcomp with ⟨hb1, hb2⟩
        exact hno a ha ⟨beq_iff_eq.mp hb1, beq_iff_eq.mp hb2⟩
      rw [hl0]
      simp
    · intro r hr hrp hrc
      rcases List.mem_map.mp hr with ⟨a, ha, rfl⟩
      rcases List.mem_append.mp ha with ha' | ha'
      · rw [hrepl _ a ha'] at hrp hrc
        exact absurd ⟨hrp, hrc⟩ (hno a ha')
      · rw [List.mem_singleton] at ha'
        subst ha'
        rw [if_pos (by simp)]
        exact ⟨rfl, db.now + 1, rfl, Nat.lt_succ_self _⟩

theorem upsert_no_transition_restriction_witness :
    ((create_or_update_prequalification_response exampleDb 20 2
        PrequalificationStatus.SHORTLISTED none).2.status =
      PrequalificationStatus.SHORTLISTED) ∧
    ((create_or_update_prequalification_response
        (create_or_update_prequalification_response exampleDb 20 4
          PrequalificationStatus.INTERESTED none).1 20 4
        PrequalificationStatus.REJECTED
        (some "nope")).1.prequalification_responses.countP
      (fun r => r.project_id == 20 && r.contractor_company_id == 4) = 1) :=
  ⟨((upsert_no_transition_restriction exampleDb 20 2 (by decide)
      (by decide)).1 PrequalificationStatus.SHORTLISTED none
      (mkResponse 35 20 2 PrequalificationStatus.INTERESTED)
      (by decide) (by decide) (by decide)).1,
   ((upsert_no_transition_restriction exampleDb 20 4 (by decide)
      (by decide)).2 (by decide) none (some "nope")).1⟩

/-- C8: when upsert finds an existing row for (project_id,
contractor_company_id), the store keeps the same number of response rows and
every row keeps its id, project_id, contractor_company_id and created_at;
rows not matching the pair are entirely untouched, and the matched row gets
exactly the new status, the new notes and a refreshed updated_at. -/
theorem upsert_response_frame (db : DB) (p c : Nat)
    (s : PrequalificationStatus) (n : Option String)
    (hid : db.prequalification_responses.Pairwise (fun a b => a.id ≠ b.id))
    (hpair : db.prequalification_responses.Pairwise (fun a b =>
      ¬(a.project_id = b.project_id ∧
        a.contractor_company_id = b.contractor_company_id)))
    (e : PrequalificationResponse) (he : e ∈ db.prequalification_responses)
    (hep : e.project_id = p) (hec : e.contractor_company_id = c) :
    (create_or_update_prequalification_response db p c s
        n).1.prequalification_responses.length
      = db.prequalification_responses.length ∧
    ∀ (i : Nat) (h1 : i < db.prequalification_responses.length)
      (h2 : i < (create_or_update_prequalification_response db p c s
        n).1.prequalification_responses.length),
      ((create_or_update_prequalification_response db p c s
          n).1.prequalification_responses.get ⟨i, h2⟩).id
        = (db.prequalification_responses.get ⟨i, h1⟩).id ∧
      ((create_or_update_prequalification_response db p c s
          n).1.prequalification_responses.get ⟨i, h2⟩).project_id
        = (db.prequalification_responses.get ⟨i, h1⟩).project_id ∧
      ((create_or_update_prequalification_response db p c s
          n).1.prequalification_responses.get ⟨i, h2⟩).contractor_company_id
        = (db.prequalification_responses.get ⟨i, h1⟩).contractor_company_id ∧
      ((create_or_update_prequalification_response db p c s
          n).1.prequalification_responses.get ⟨i, h2⟩).created_at
        = (db.prequalification_responses.get ⟨i, h1⟩).created_at ∧
      (¬((db.prequalification_responses.get ⟨i, h1⟩).project_id = p ∧
          (db.prequalification_responses.get ⟨i, h1⟩).contractor_company_id = c) →
        (create_or_update_prequalification_response db p c s
            n).1.prequalification_responses.get ⟨i, h2⟩
          = db.prequalification_responses.get ⟨i, h1⟩) ∧
      (db.prequalification_responses.get ⟨i, h1⟩ = e →
        ((create_or_update_prequalification_response db p c s
            n).1.prequalification_responses.get ⟨i, h2⟩).status = s ∧
        ((create_or_update_prequalification_response db p c s
            n).1.prequalification_responses.get ⟨i, h2⟩).notes = n ∧
        ((create_or_update_prequalification_response db p c s
            n).1.prequalification_responses.get ⟨i, h2⟩).updated_at
          = some db.now) := by
  have hfind := resp_find_unique db.prequalification_responses p c hpair he hep hec
  rw [upsert_response_update_eq db p c s n e hfind]
  dsimp only
  refine ⟨by simp, ?_⟩
  intro i h1 h2
  have hget : (db.prequalification_responses.map
      (fun resp => if resp.id == e.id then
        { e with status := s, notes := n, updated_at := some db.now }
        else resp)).get ⟨i, h2⟩
      = (if (db.prequalification_responses.get ⟨i, h1⟩).id == e.id then
          { e with status := s, notes := n, updated_at := some db.now }
          else db.prequalification_responses.get ⟨i, h1⟩) := by
    simp only [List.get_eq_getElem, List.getElem_map]
  rw [hget]
  have hmem : db.prequalification_responses.get ⟨i, h1⟩ ∈
      db.prequalification_responses := List.get_mem _ _ _
  rcases resp_replace_fields hid he
    { e with status := s, notes := n, updated_at := some db.now }
    rfl rfl rfl rfl hmem with ⟨hpa, hca, hia, hcrea⟩
  refine ⟨hia, hpa, hca, hcrea, ?_, ?_⟩
  · intro hnot
    by_cases hcase :
        ((db.prequalification_responses.get ⟨i, h1⟩).id == e.id) = true
    · exfalso
      have heq : db.prequalification_responses.get ⟨i, h1⟩ = e :=
        eq_of_key_unique (f := PrequalificationResponse.id) hid hmem he
          (beq_iff_eq.mp hcase)
      exact hnot ⟨by rw [heq, hep], by rw [heq, hec]⟩
    · rw [if_neg hcase]
  · intro holde
    rw [holde, if_pos (by simp)]
    exact ⟨rfl, rfl, rfl⟩

theorem upsert_response_frame_witness :
    (create_or_update_prequalification_response exampleDb 20 2
        PrequalificationStatus.REJECTED
        (some "x")).1.prequalification_responses.length
      = exampleDb.prequalification_responses.length :=
  (upsert_response_frame exampleDb 20 2 PrequalificationStatus.REJECTED
    (some "x") (by decide) (by decide)
    (mkResponse 35 20 2 PrequalificationStatus.INTERESTED)
    (by decide) (by decide) (by decide)).1

/- ------------------------------------------------------------------ -/
/- Helper lemmas: the company-capability upsert                        -/
/- ------------------------------------------------------------------ -/

theorem cc_pairb_pairwise {l : List CompanyCapability} {cid kid : Nat}
    (hpair : l.Pairwise (fun a b =>
      ¬(a.company_id = b.company_id ∧ a.capability_id = b.capability_id))) :
    l.Pairwise (fun a b =>
      ¬((a.company_id == cid && a.capability_id == kid) = true ∧
        (b.company_id == cid && b.capability_id == kid) = true)) := by
  refine hpair.imp (fun hn => ?_)
  rintro ⟨ha, hb⟩
  rcases Bool.and_eq_true_iff.mp ha with ⟨ha1, ha2⟩
  rcases Bool.and_eq_true_iff.mp hb with ⟨hb1, hb2⟩
  rw [beq_iff_eq] at ha1 ha2 hb1 hb2
  exact hn ⟨by rw [ha1, hb1], by rw [ha2, hb2]⟩

theorem cc_find_unique (l : List CompanyCapability) (cid kid : Nat)
    (hpair : l.Pairwise (fun a b =>
      ¬(a.company_id = b.company_id ∧ a.capability_id = b.capability_id)))
    {e : CompanyCapability} (he : e ∈ l) (hecid : e.company_id = cid)
    (hekid : e.capability_id = kid) :
    l.find? (fun cc => cc.company_id == cid && cc.capability_id == kid) = some e := by
  apply find?_eq_some_of_unique (cc_pairb_pairwise hpair) he
  rw [Bool.and_eq_true_iff, beq_iff_eq, beq_iff_eq]
  exact ⟨hecid, hekid⟩

theorem cc_replace_fields {l : List CompanyCapability}
    (hid : l.Pairwise (fun a b => a.id ≠ b.id))
    {e : CompanyCapability} (he : e ∈ l)
    (upd : CompanyCapability)
    (hupd_cid : upd.company_id = e.company_id)
    (hupd_kid : upd.capability_id = e.capability_id)
    (hupd_id : upd.id = e.id)
    {a : CompanyCapability} (ha : a ∈ l) :
    (if a.id == e.id then upd else a).company_id = a.company_id ∧
      (if a.id == e.id then upd else a).capability_id = a.capability_id ∧
      (if a.id == e.id then upd else a).id = a.id := by
  by_cases h : (a.id == e.id) = true
  · have hae : a = e :=
      eq_of_key_unique (f := CompanyCapability.id) hid ha he (beq_iff_eq.mp h)
    subst hae
    simp [h, hupd_cid, hupd_kid, hupd_id]
  · simp [h]

theorem add_capability_update_eq (db : DB) (cid kid : Nat)
    (ey ts tv : Option ℚ) (e : CompanyCapability)
    (hfind : db.company_capabilities.find?
      (fun cc => cc.company_id == cid && cc.capability_id == kid) = some e) :
    add_capability_to_company db cid kid ey ts tv =
      ({ db with
          company_capabilities := db.company_capabilities.map
            (fun cc => if cc.id == e.id then
              { e with
                experience_years := ey, typical_project_size_m2 := ts,
                typical_contract_value_million := tv }
              else cc),
          now := db.now + 1 },
       { e with
         experience_years := ey, typical_project_size_m2 := ts,
         typical_contract_value_million := tv }) := by
  unfold add_capability_to_company
  rw [hfind]

theorem add_capability_insert_eq (db : DB) (cid kid : Nat)
    (ey ts tv : Option ℚ)
    (hfind : db.company_capabilities.find?
      (fun cc => cc.company_id == cid && cc.capability_id == kid) = none) :
    add_capability_to_company db cid kid ey ts tv =
      ({ db with
          company_capabilities := db.company_capabilities ++
            [{ id := db.next_id, company_id := cid, capability_id := kid,
               experience_years := ey, typical_project_size_m2 := ts,
               typical_contract_value_million := tv }],
          next_id := db.next_id + 1, now := db.now + 1 },
       { id := db.next_id, company_id := cid, capability_id := kid,
         experience_years := ey, typical_project_size_m2 := ts,
         typical_contract_value_million := tv }) := by
  unfold add_capability_to_company
  rw [hfind]

/-- C9: re-adding a (company_id, capability_id) pair that already has a
CompanyCapability row creates no new row: the existing row is overwritten in
place with the three supplied numeric attributes and returned (same id),
and at most one row per pair remains after every call. -/
theorem add_capability_existing_pair_overwrites (db : DB) (cid kid : Nat)
    (ey ts tv : Option ℚ)
    (hid : db.company_capabilities.Pairwise (fun a b => a.id ≠ b.id))
    (hpair : db.company_capabilities.Pairwise (fun a b =>
      ¬(a.company_id = b.company_id ∧ a.capability_id = b.capability_id))) :
    (∀ e ∈ db.company_capabilities,
      e.company_id = cid → e.capability_id = kid →
      ((add_capability_to_company db cid kid ey ts
          tv).1.company_capabilities.length
          = db.company_capabilities.length ∧
        (add_capability_to_company db cid kid ey ts tv).2.id = e.id ∧
        (add_capability_to_company db cid kid ey ts tv).2.company_id
          = e.company_id ∧
        (add_capability_to_company db cid kid ey ts tv).2.capability_id
          = e.capability_id ∧
        (add_capability_to_company db cid kid ey ts tv).2.experience_years = ey ∧
        (add_capability_to_company db cid kid ey ts
          tv).2.typical_project_size_m2 = ts ∧
        (add_capability_to_company db cid kid ey ts
          tv).2.typical_contract_value_million = tv ∧
        (add_capability_to_company db cid kid ey ts tv).2 ∈
          (add_capability_to_company db cid kid ey ts
            tv).1.company_capabilities)) ∧
    (add_capability_to_company db cid kid ey ts
        tv).1.company_capabilities.Pairwise
      (fun a b => ¬(a.company_id = b.company_id ∧
        a.capability_id = b.capability_id)) := by
  constructor
  · intro e he hecid hekid
    have hfind := cc_find_unique db.company_capabilities cid kid hpair he hecid hekid
    rw [add_capability_update_eq db cid kid ey ts tv e hfind]
    dsimp only
    refine ⟨by simp, rfl, rfl, rfl, rfl, rfl, rfl, ?_⟩
    apply List.mem_map.mpr
    refine ⟨e, he, ?_⟩
    simp
  · cases hfind : db.company_capabilities.find?
        (fun cc => cc.company_id == cid && cc.capability_id == kid) with
    | some e =>
      have he := List.mem_of_find?_eq_some hfind
      rw [add_capability_update_eq db cid kid ey ts tv e hfind]
      dsimp only
      refine List.pairwise_map.mpr (hpair.imp_of_mem ?_)
      intro a b ha hb hn hcontra
      rcases hcontra with ⟨h1, h2⟩
      rcases cc_replace_fields hid he
        { e with
          experience_years := ey, typical_project_size_m2 := ts,
          typical_contract_value_million := tv }
        rfl rfl rfl ha with ⟨hca, hka, _⟩
      rcases cc_replace_fields hid he
        { e with
          experience_years := ey, typical_project_size_m2 := ts,
          typical_contract_value_million := tv }
        rfl rfl rfl hb with ⟨hcb, hkb, _⟩
      rw [hca, hcb] at h1
      rw [hka, hkb] at h2
      exact hn ⟨h1, h2⟩
    | none =>
      rw [add_capability_insert_eq db cid kid ey ts tv hfind]
      dsimp only
      rw [List.pairwise_append]
      refine ⟨hpair, List.pairwise_singleton _ _, ?_⟩
      intro a ha b hb
      rw [List.mem_singleton] at hb
      subst hb
      rintro ⟨h1, h2⟩
      apply List.find?_eq_none.mp hfind a ha
      rw [Bool.and_eq_true_iff, beq_iff_eq, beq_iff_eq]
      exact ⟨h1, h2⟩

theorem add_capability_existing_pair_overwrites_witness :
    (add_capability_to_company exampleDb 3 101 (some 7) none
        (some 12)).1.company_capabilities.length
      = exampleDb.company_capabilities.length ∧
    (add_capability_to_company exampleDb 3 101 (some 7) none (some 12)).2.id
      = (mkCompanyCapability 12 3 101).id ∧
    (add_capability_to_company exampleDb 3 101 (some 7) none (some 12)).2.company_id
      = (mkCompanyCapability 12 3 101).company_id ∧
    (add_capability_to_company exampleDb 3 101 (some 7) none
        (some 12)).2.capability_id
      = (mkCompanyCapability 12 3 101).capability_id ∧
    (add_capability_to_company exampleDb 3 101 (some 7) none
        (some 12)).2.experience_years = some 7 ∧
    (add_capability_to_company exampleDb 3 101 (some 7) none
        (some 12)).2.typical_project_size_m2 = none ∧
    (add_capability_to_company exampleDb 3 101 (some 7) none
        (some 12)).2.typical_contract_value_million = some 12 ∧
    (add_capability_to_company exampleDb 3 101 (some 7) none (some 12)).2 ∈
      (add_capability_to_company exampleDb 3 101 (some 7) none
        (some 12)).1.company_capabilities :=
  (add_capability_existing_pair_overwrites exampleDb 3 101 (some 7) none
      (some 12) (by decide) (by decide)).1
    (mkCompanyCapability 12 3 101) (by decide) (by decide) (by decide)

/-- C10: a create_project call that does not supply a status argument creates
the project with status Open (the service-layer default), which differs from
the Project model column default Draft, so a project created through the
service without an explicit status is never in Draft state; the created row
is the one appended to the store. -/
theorem create_project_defaults_to_open (db : DB) (dev : Nat) (nm : String) :
    (create_project db dev nm).2.status = ProjectStatus.OPEN ∧
    (create_project db dev nm).2.status ≠ project_status_column_default ∧
    project_status_column_default = ProjectStatus.DRAFT ∧
    (create_project db dev nm).1.projects
      = db.projects ++ [(create_project db dev nm).2] := by
  refine ⟨rfl, ?_, rfl, rfl⟩
  intro h
  exact ProjectStatus.noConfusion h
